import Mathlib

/-!
Verification of the provider-integration token lifecycle of the repository:
the `user_integrations` table and its SQL upsert function, the server
actions `upsertGoogleIntegration` and `disconnectGoogleIntegration`, and the
client status read `fetchIntegrationStatus`.  Timestamps are modelled as
natural numbers (milliseconds), UUIDs as naturals, and the database table as
a list of rows.
-/

namespace Employee

/-- One row of the `user_integrations` table: columns from the CREATE TABLE
statement plus the token columns added by the later migration
(`provider_access_token_encrypted`, `provider_refresh_token_encrypted`,
`token_expires_at`). -/
structure IntegrationRecord where
  userId : Nat
  provider : String
  providerUserId : Option String
  status : String
  scopes : Option (List String)
  providerAccessTokenEncrypted : Option String
  providerRefreshTokenEncrypted : Option String
  tokenExpiresAt : Option Nat
  createdAt : Nat
  updatedAt : Nat
deriving Repr, DecidableEq

/-- The table contents: a list of rows.  The UNIQUE (user_id, provider)
constraint of the schema is expressed by the `WFStore` predicate below. -/
abbrev Store := List IntegrationRecord

/-- Row filter used by every operation: `user_id = uid AND provider = prov`. -/
def keyMatches (uid : Nat) (prov : String) (r : IntegrationRecord) : Bool :=
  r.userId == uid && r.provider == prov

/-- The UNIQUE (user_id, provider) constraint of the schema: at most one row
per key. -/
def WFStore (store : Store) : Prop :=
  ∀ uid prov, store.countP (keyMatches uid prov) ≤ 1

/-- The DO UPDATE arm of the ON CONFLICT clause in
`upsert_google_user_integration`, applied rowwise: the row with the key
(p_user_id, google) is overwritten with the EXCLUDED values,
`status = connected` and `updated_at = NOW()`; any other row is returned
unchanged. -/
def connectUpdate (p_user_id now : Nat) (p_provider_user_id : Option String)
    (p_scopes : Option (List String))
    (p_encrypted_access_token p_encrypted_refresh_token : Option String)
    (p_token_expires_at : Option Nat) (r : IntegrationRecord) : IntegrationRecord :=
  if keyMatches p_user_id "google" r then
    { r with
      providerUserId := p_provider_user_id
      status := "connected"
      scopes := p_scopes
      providerAccessTokenEncrypted := p_encrypted_access_token
      providerRefreshTokenEncrypted := p_encrypted_refresh_token
      tokenExpiresAt := p_token_expires_at
      updatedAt := now }
  else r

/-- Row-level semantics of the INSERT ... ON CONFLICT (user_id, provider)
DO UPDATE inside `upsert_google_user_integration`: if a row with the key
(p_user_id, google) exists it is updated in place via `connectUpdate`;
otherwise a fresh row is inserted with `status = connected` and both
timestamps set to NOW(). -/
def upsertRows (now p_user_id : Nat) (p_provider_user_id : Option String)
    (p_scopes : Option (List String))
    (p_encrypted_access_token p_encrypted_refresh_token : Option String)
    (p_token_expires_at : Option Nat) (store : Store) : Store :=
  if store.any (keyMatches p_user_id "google") then
    store.map (connectUpdate p_user_id now p_provider_user_id p_scopes
      p_encrypted_access_token p_encrypted_refresh_token p_token_expires_at)
  else
    store ++ [{ userId := p_user_id
                provider := "google"
                providerUserId := p_provider_user_id
                status := "connected"
                scopes := p_scopes
                providerAccessTokenEncrypted := p_encrypted_access_token
                providerRefreshTokenEncrypted := p_encrypted_refresh_token
                tokenExpiresAt := p_token_expires_at
                createdAt := now
                updatedAt := now }]

/-- The SQL function `upsert_google_user_integration`.  It runs with invoker
security, so the row-level-security policies apply: insert and update are
only permitted when `auth.uid() = user_id`; a call for a foreign user id
fails with an RLS error instead of writing.  On success it performs the
ON CONFLICT upsert of `upsertRows`. -/
def upsert_google_user_integration (authUid now p_user_id : Nat)
    (p_provider_user_id : Option String) (p_scopes : Option (List String))
    (p_encrypted_access_token p_encrypted_refresh_token : Option String)
    (p_token_expires_at : Option Nat) (store : Store) : Except String Store :=
  if authUid = p_user_id then
    .ok (upsertRows now p_user_id p_provider_user_id p_scopes
      p_encrypted_access_token p_encrypted_refresh_token p_token_expires_at store)
  else
    .error "new row violates row-level security policy for table user_integrations"

/-- The argument record of the server action `upsertGoogleIntegration`. -/
structure GoogleIntegrationData where
  provider_access_token : Option String
  provider_refresh_token : Option String
  expires_in : Option Nat
  scopes : List String
  provider_user_id : String
deriving Repr, DecidableEq

/-- Result of a server action: `\x7b error: msg \x7d` or `\x7b success: true \x7d`. -/
inductive ActionResult where
  | err (msg : String)
  | ok
deriving Repr, DecidableEq

/-- `tokenExpiresAt` computation of the action: `expires_in` is a JavaScript
truthiness test, so a missing or zero value leaves the expiry null, otherwise
the expiry is `Date.now() + expires_in * 1000` milliseconds. -/
def expiresAtOf (now : Nat) (expires_in : Option Nat) : Option Nat :=
  match expires_in with
  | some e => if e == 0 then none else some (now + e * 1000)
  | none => none

/-- The server action `upsertGoogleIntegration`.  Without an authenticated
user it returns the error value and touches nothing.  Otherwise it passes
the raw tokens directly (the source stores them without encryption) to the
RPC `upsert_google_user_integration` with `p_user_id` equal to the
authenticated id. -/
def upsertGoogleIntegration (auth : Option Nat) (now : Nat)
    (data : GoogleIntegrationData) (store : Store) : ActionResult × Store :=
  match auth with
  | none => (.err "User not authenticated", store)
  | some uid =>
    let directAccessToken := data.provider_access_token
    let directRefreshToken := data.provider_refresh_token
    let tokenExpiresAt := expiresAtOf now data.expires_in
    match upsert_google_user_integration uid now uid (some data.provider_user_id)
        (some data.scopes) directAccessToken directRefreshToken
        tokenExpiresAt store with
    | .error m => (.err m, store)
    | .ok store2 => (.ok, store2)

/-- The SET clause of the UPDATE issued by the disconnect action, applied
rowwise: a row with `user_id = uid AND provider = google` gets its status
set to disconnected and its token fields, scopes and provider user id
cleared, with `updated_at` bumped; any other row is returned unchanged. -/
def disconnectUpdate (uid now : Nat) (r : IntegrationRecord) : IntegrationRecord :=
  if keyMatches uid "google" r then
    { r with
      status := "disconnected"
      scopes := none
      providerAccessTokenEncrypted := none
      providerRefreshTokenEncrypted := none
      tokenExpiresAt := none
      providerUserId := none
      updatedAt := now }
  else r

/-- Row-level semantics of the UPDATE issued by the disconnect action:
`disconnectUpdate` applied to every row. -/
def disconnectRows (uid now : Nat) (store : Store) : Store :=
  store.map (disconnectUpdate uid now)

/-- The server action `disconnectGoogleIntegration`: without an
authenticated user it returns the error value and performs no write;
otherwise it issues the `disconnectRows` update, which succeeds also when
it matches zero rows. -/
def disconnectGoogleIntegration (auth : Option Nat) (now : Nat)
    (store : Store) : ActionResult × Store :=
  match auth with
  | none => (.err "User not authenticated", store)
  | some uid => (.ok, disconnectRows uid now store)

/-- The shape returned by the client status read. -/
structure IntegrationStatus where
  provider : String
  connected : Bool
  scopes : Option (List String)
  lastChecked : Option Nat
deriving Repr, DecidableEq

/-- Effects an operation may perform besides reading and writing its own
result: an outbound provider token-refresh call, or a store write. -/
inductive Effect where
  | providerRefreshCall
  | storeWrite
deriving Repr, DecidableEq

/-- The client read `fetchIntegrationStatus`: with no user it clears the
local state; otherwise it selects `status, scopes` for the row
(user_id, google) via maybeSingle and derives
`connected = (status = connected)`, with `lastChecked` set to the current
time.  It performs no write and no provider call, so its effect list is
empty. -/
def fetchIntegrationStatus (auth : Option Nat) (now : Nat) (store : Store) :
    Option IntegrationStatus × List Effect × Store :=
  match auth with
  | none => (none, [], store)
  | some uid =>
    match store.find? (keyMatches uid "google") with
    | some r =>
      (some { provider := "google", connected := r.status == "connected",
              scopes := r.scopes, lastChecked := some now }, [], store)
    | none =>
      (some { provider := "google", connected := false, scopes := none,
              lastChecked := some now }, [], store)

/-- Token decryption.  The source removed encryption (tokens are stored as
plaintext in the encrypted columns), so decryption is the identity. -/
def decryptToken (s : String) : String := s

/-- Five minutes in milliseconds: the freshness margin of the backend token
read. -/
def fiveMinutesMs : Nat := 5 * 60 * 1000

/-- Result of the backend token read. -/
structure GoogleTokens where
  accessToken : Option String
  refreshToken : Option String
deriving Repr, DecidableEq

/-- Modelled from the spec: the coordinator read `getGoogleTokensForUser`
exists in the repository only as commented-out placeholder code, so this
definition follows that placeholder, whose fresh path coincides with the
spec algorithm.  It selects the connected (userId, google) row, decrypts
the stored tokens, and when the expiry lies before `now` plus the
five-minute margin treats the access token as stale (the placeholder then
clears it without an outbound call); otherwise it returns the stored
access token directly, with no provider call and no store write. -/
def getGoogleTokensForUser (userId now : Nat) (store : Store) :
    GoogleTokens × List Effect × Store :=
  match store.find? (fun r => keyMatches userId "google" r && r.status == "connected") with
  | none => ({ accessToken := none, refreshToken := none }, [], store)
  | some r =>
    let accessToken := r.providerAccessTokenEncrypted.map decryptToken
    let refreshToken := r.providerRefreshTokenEncrypted.map decryptToken
    match accessToken, r.tokenExpiresAt with
    | some a, some expiresAt =>
      if expiresAt < now + fiveMinutesMs then
        ({ accessToken := none, refreshToken := refreshToken }, [], store)
      else
        ({ accessToken := some a, refreshToken := refreshToken }, [], store)
    | _, _ => ({ accessToken := accessToken, refreshToken := refreshToken }, [], store)

/-- A mutation of the integration record of one user, as performed by the
lifecycle actions. -/
inductive Mutation where
  | connect (data : GoogleIntegrationData)
  | disconnect
deriving Repr

/-- Apply one lifecycle mutation for the authenticated user `uid` at time
`now`. -/
def applyMutation (uid now : Nat) (m : Mutation) (store : Store) : Store :=
  match m with
  | .connect data => (upsertGoogleIntegration (some uid) now data store).2
  | .disconnect => (disconnectGoogleIntegration (some uid) now store).2

/-- A lifecycle mutation together with the authenticated user issuing it
and the wall-clock time at which it runs. -/
structure TimedMutation where
  now : Nat
  uid : Nat
  op : Mutation

/-- Run a sequence of timestamped lifecycle mutations. -/
def runMutations (store : Store) : List TimedMutation → Store
  | [] => store
  | t :: rest => runMutations (applyMutation t.uid t.now t.op store) rest

/-- Every row timestamp in the store is at most `t`. -/
def storeStampedLe (store : Store) (t : Nat) : Prop :=
  ∀ r ∈ store, r.updatedAt ≤ t

/-- Lower bound a mutation sequence by the store timestamps: the first
mutation, when present, does not run before any existing row was stamped. -/
def stampsLB (ms : List TimedMutation) (store : Store) : Prop :=
  match ms with
  | [] => True
  | t :: _ => storeStampedLe store t.now

/-- Concrete connect payload used to instantiate theorems. -/
def sampleData1 : GoogleIntegrationData :=
  { provider_access_token := some "A1", provider_refresh_token := some "R1",
    expires_in := some 60, scopes := ["email"], provider_user_id := "gu-1" }

/-- A second concrete connect payload with different values. -/
def sampleData2 : GoogleIntegrationData :=
  { provider_access_token := some "A2", provider_refresh_token := some "R2",
    expires_in := some 120, scopes := ["email", "calendar"],
    provider_user_id := "gu-1" }

/-- A concrete connected row of user 1 with a far-future expiry. -/
def sampleFreshRow : IntegrationRecord :=
  { userId := 1, provider := "google", providerUserId := some "gu-1",
    status := "connected", scopes := some ["email"],
    providerAccessTokenEncrypted := some "tok-A",
    providerRefreshTokenEncrypted := some "tok-R",
    tokenExpiresAt := some 10000000, createdAt := 0, updatedAt := 3 }

/-- A concrete connected row of a second user. -/
def sampleOtherRow : IntegrationRecord :=
  { userId := 2, provider := "google", providerUserId := some "gu-2",
    status := "connected", scopes := some ["email"],
    providerAccessTokenEncrypted := some "tok-B",
    providerRefreshTokenEncrypted := some "tok-S",
    tokenExpiresAt := some 5000000, createdAt := 0, updatedAt := 4 }

/-! ### Helper lemmas -/

lemma keyMatches_true_iff {uid : Nat} {prov : String} {r : IntegrationRecord} :
    keyMatches uid prov r = true ↔ r.userId = uid ∧ r.provider = prov := by
  simp [keyMatches]

lemma connectUpdate_userId (uid now : Nat) (pu : Option String)
    (sc : Option (List String)) (a rf : Option String) (ex : Option Nat)
    (r : IntegrationRecord) :
    (connectUpdate uid now pu sc a rf ex r).userId = r.userId := by
  unfold connectUpdate
  split <;> rfl

lemma connectUpdate_provider (uid now : Nat) (pu : Option String)
    (sc : Option (List String)) (a rf : Option String) (ex : Option Nat)
    (r : IntegrationRecord) :
    (connectUpdate uid now pu sc a rf ex r).provider = r.provider := by
  unfold connectUpdate
  split <;> rfl

lemma keyMatches_connectUpdate (uid now : Nat) (pu : Option String)
    (sc : Option (List String)) (a rf : Option String) (ex : Option Nat)
    (u : Nat) (p : String) (r : IntegrationRecord) :
    keyMatches u p (connectUpdate uid now pu sc a rf ex r) = keyMatches u p r := by
  unfold keyMatches
  rw [connectUpdate_userId, connectUpdate_provider]

lemma connectUpdate_of_ne (uid now : Nat) (pu : Option String)
    (sc : Option (List String)) (a rf : Option String) (ex : Option Nat)
    {r : IntegrationRecord} (h : keyMatches uid "google" r = false) :
    connectUpdate uid now pu sc a rf ex r = r := by
  unfold connectUpdate
  simp [h]

lemma disconnectUpdate_userId (uid now : Nat) (r : IntegrationRecord) :
    (disconnectUpdate uid now r).userId = r.userId := by
  unfold disconnectUpdate
  split <;> rfl

lemma disconnectUpdate_provider (uid now : Nat) (r : IntegrationRecord) :
    (disconnectUpdate uid now r).provider = r.provider := by
  unfold disconnectUpdate
  split <;> rfl

lemma keyMatches_disconnectUpdate (uid now : Nat) (u : Nat) (p : String)
    (r : IntegrationRecord) :
    keyMatches u p (disconnectUpdate uid now r) = keyMatches u p r := by
  unfold keyMatches
  rw [disconnectUpdate_userId, disconnectUpdate_provider]

lemma disconnectUpdate_of_ne (uid now : Nat) {r : IntegrationRecord}
    (h : keyMatches uid "google" r = false) :
    disconnectUpdate uid now r = r := by
  unfold disconnectUpdate
  simp [h]

lemma upsertGoogleIntegration_some (uid now : Nat) (d : GoogleIntegrationData)
    (store : Store) :
    upsertGoogleIntegration (some uid) now d store =
      (ActionResult.ok,
        upsertRows now uid (some d.provider_user_id) (some d.scopes)
          d.provider_access_token d.provider_refresh_token
          (expiresAtOf now d.expires_in) store) := by
  simp [upsertGoogleIntegration, upsert_google_user_integration]

lemma upsertRows_countP_key (now uid : Nat) (pu : Option String)
    (sc : Option (List String)) (a rf : Option String) (ex : Option Nat)
    {store : Store} (h : store.countP (keyMatches uid "google") ≤ 1) :
    (upsertRows now uid pu sc a rf ex store).countP (keyMatches uid "google") = 1 := by
  unfold upsertRows
  split
  case isTrue hany =>
    rw [List.countP_map]
    have hcong : store.countP
        (keyMatches uid "google" ∘ connectUpdate uid now pu sc a rf ex) =
        store.countP (keyMatches uid "google") := by
      apply List.countP_congr
      intro r _
      simp [Function.comp_apply, keyMatches_connectUpdate]
    rw [hcong]
    have hpos : 0 < store.countP (keyMatches uid "google") :=
      List.countP_pos_iff.mpr (List.any_eq_true.mp hany)
    omega
  case isFalse hany =>
    have hf : store.any (keyMatches uid "google") = false := by simpa using hany
    rw [List.any_eq_false] at hf
    have h0 : store.countP (keyMatches uid "google") = 0 :=
      List.countP_eq_zero.mpr hf
    rw [List.countP_append, h0]
    simp [keyMatches]

lemma upsertRows_key_fields (now uid : Nat) (pu : Option String)
    (sc : Option (List String)) (a rf : Option String) (ex : Option Nat)
    (store : Store) :
    ∀ r ∈ upsertRows now uid pu sc a rf ex store,
      keyMatches uid "google" r = true →
        r.providerUserId = pu ∧ r.status = "connected" ∧ r.scopes = sc ∧
        r.providerAccessTokenEncrypted = a ∧
        r.providerRefreshTokenEncrypted = rf ∧
        r.tokenExpiresAt = ex ∧ r.updatedAt = now := by
  unfold upsertRows
  split
  case isTrue hany =>
    intro r hr hkey
    rw [List.mem_map] at hr
    obtain ⟨r0, hr0, rfl⟩ := hr
    rw [keyMatches_connectUpdate] at hkey
    simp [connectUpdate, hkey]
  case isFalse hany =>
    intro r hr hkey
    rw [List.mem_append] at hr
    rcases hr with hr | hr
    · have hf : store.any (keyMatches uid "google") = false := by simpa using hany
      rw [List.any_eq_false] at hf
      exact absurd hkey (hf r hr)
    · simp only [List.mem_singleton] at hr
      subst hr
      simp

lemma upsertRows_mem (now uid : Nat) (pu : Option String)
    (sc : Option (List String)) (a rf : Option String) (ex : Option Nat)
    (store : Store) :
    ∀ r' ∈ upsertRows now uid pu sc a rf ex store,
      r' ∈ store ∨ (r'.userId = uid ∧ r'.provider = "google" ∧ r'.updatedAt = now) := by
  unfold upsertRows
  split
  case isTrue hany =>
    intro r' hr'
    rw [List.mem_map] at hr'
    obtain ⟨r0, hr0, rfl⟩ := hr'
    cases h : keyMatches uid "google" r0
    · left
      rw [connectUpdate_of_ne uid now pu sc a rf ex h]
      exact hr0
    · right
      obtain ⟨hu, hp⟩ := keyMatches_true_iff.mp h
      refine ⟨?_, ?_, ?_⟩
      · rw [connectUpdate_userId]; exact hu
      · rw [connectUpdate_provider]; exact hp
      · simp [connectUpdate, h]
  case isFalse hany =>
    intro r' hr'
    rw [List.mem_append] at hr'
    rcases hr' with hr' | hr'
    · exact .inl hr'
    · simp only [List.mem_singleton] at hr'
      subst hr'
      exact .inr ⟨rfl, rfl, rfl⟩

lemma upsertRows_track (now uid : Nat) (pu : Option String)
    (sc : Option (List String)) (a rf : Option String) (ex : Option Nat)
    (store : Store) :
    ∀ r ∈ store, ∃ r' ∈ upsertRows now uid pu sc a rf ex store,
      r'.userId = r.userId ∧ r'.provider = r.provider ∧
      (r' = r ∨ r'.updatedAt = now) := by
  unfold upsertRows
  split
  case isTrue hany =>
    intro r hr
    refine ⟨connectUpdate uid now pu sc a rf ex r,
      List.mem_map_of_mem _ hr, connectUpdate_userId _ _ _ _ _ _ _ _,
      connectUpdate_provider _ _ _ _ _ _ _ _, ?_⟩
    cases h : keyMatches uid "google" r
    · exact .inl (connectUpdate_of_ne uid now pu sc a rf ex h)
    · right
      simp [connectUpdate, h]
  case isFalse hany =>
    intro r hr
    exact ⟨r, List.mem_append_left _ hr, rfl, rfl, .inl rfl⟩

lemma disconnectRows_countP (uid now : Nat) (store : Store) (u : Nat) (p : String) :
    (disconnectRows uid now store).countP (keyMatches u p) =
      store.countP (keyMatches u p) := by
  unfold disconnectRows
  rw [List.countP_map]
  apply List.countP_congr
  intro r _
  simp [Function.comp_apply, keyMatches_disconnectUpdate]

lemma disconnectRows_mem (uid now : Nat) (store : Store) :
    ∀ r' ∈ disconnectRows uid now store, r' ∈ store ∨ r'.updatedAt = now := by
  unfold disconnectRows
  intro r' hr'
  rw [List.mem_map] at hr'
  obtain ⟨r0, hr0, rfl⟩ := hr'
  cases h : keyMatches uid "google" r0
  · left
    rw [disconnectUpdate_of_ne uid now h]
    exact hr0
  · right
    simp [disconnectUpdate, h]

lemma disconnectRows_track (uid now : Nat) (store : Store) :
    ∀ r ∈ store, ∃ r' ∈ disconnectRows uid now store,
      r'.userId = r.userId ∧ r'.provider = r.provider ∧
      (r' = r ∨ r'.updatedAt = now) := by
  unfold disconnectRows
  intro r hr
  refine ⟨disconnectUpdate uid now r, List.mem_map_of_mem _ hr,
    disconnectUpdate_userId _ _ _, disconnectUpdate_provider _ _ _, ?_⟩
  cases h : keyMatches uid "google" r
  · exact .inl (disconnectUpdate_of_ne uid now h)
  · right
    simp [disconnectUpdate, h]

lemma disconnectRows_key_fields (uid now : Nat) (store : Store) :
    ∀ r' ∈ disconnectRows uid now store, keyMatches uid "google" r' = true →
      r'.status = "disconnected" ∧ r'.scopes = none ∧
      r'.providerAccessTokenEncrypted = none ∧
      r'.providerRefreshTokenEncrypted = none ∧
      r'.tokenExpiresAt = none ∧ r'.providerUserId = none ∧
      r'.updatedAt = now := by
  unfold disconnectRows
  intro r' hr' hkey
  rw [List.mem_map] at hr'
  obtain ⟨r0, hr0, rfl⟩ := hr'
  rw [keyMatches_disconnectUpdate] at hkey
  simp [disconnectUpdate, hkey]

lemma disconnectRows_of_none (uid now : Nat) {store : Store}
    (h : ∀ r ∈ store, keyMatches uid "google" r = false) :
    disconnectRows uid now store = store := by
  unfold disconnectRows
  conv_rhs => rw [← List.map_id store]
  exact List.map_congr_left fun r hr => disconnectUpdate_of_ne uid now (h r hr)

lemma countP_append_singleton (p : IntegrationRecord → Bool)
    (l : List IntegrationRecord) (x : IntegrationRecord) :
    (l ++ [x]).countP p = l.countP p + if p x then 1 else 0 := by
  simp [List.countP_append, List.countP_cons]

lemma upsertRows_WF (now uid : Nat) (pu : Option String)
    (sc : Option (List String)) (a rf : Option String) (ex : Option Nat)
    {store : Store} (h : WFStore store) :
    WFStore (upsertRows now uid pu sc a rf ex store) := by
  intro u p
  unfold upsertRows
  split
  case isTrue hany =>
    rw [List.countP_map]
    have hcong : store.countP
        (keyMatches u p ∘ connectUpdate uid now pu sc a rf ex) =
        store.countP (keyMatches u p) := by
      apply List.countP_congr
      intro r _
      simp [Function.comp_apply, keyMatches_connectUpdate]
    rw [hcong]
    exact h u p
  case isFalse hany =>
    have hf : store.any (keyMatches uid "google") = false := by simpa using hany
    rw [List.any_eq_false] at hf
    rw [countP_append_singleton]
    split
    case isTrue hk =>
      obtain ⟨hu, hp⟩ := keyMatches_true_iff.mp hk
      have hu' : uid = u := hu
      have hp' : "google" = p := hp
      subst hu'
      subst hp'
      have h0 : store.countP (keyMatches uid "google") = 0 :=
        List.countP_eq_zero.mpr hf
      omega
    case isFalse hk =>
      have := h u p
      omega

lemma upsertRows_filter_userId_ne (now uid : Nat) (pu : Option String)
    (sc : Option (List String)) (a rf : Option String) (ex : Option Nat)
    (store : Store) {B : Nat} (hB : B ≠ uid) :
    (upsertRows now uid pu sc a rf ex store).filter (fun r => r.userId == B) =
      store.filter (fun r => r.userId == B) := by
  unfold upsertRows
  split
  case isTrue hany =>
    rw [List.filter_map]
    have hcong : store.filter
        ((fun r => r.userId == B) ∘ connectUpdate uid now pu sc a rf ex) =
        store.filter (fun r => r.userId == B) := by
      apply List.filter_congr
      intro r _
      simp [Function.comp_apply, connectUpdate_userId]
    rw [hcong]
    conv_rhs => rw [← List.map_id (store.filter (fun r => r.userId == B))]
    apply List.map_congr_left
    intro r hr
    rw [List.mem_filter] at hr
    have hrB : r.userId = B := by simpa using hr.2
    apply connectUpdate_of_ne
    simp [keyMatches, hrB, hB]
  case isFalse hany =>
    rw [List.filter_append]
    have hone : List.filter (fun r => r.userId == B)
        ([{ userId := uid, provider := "google", providerUserId := pu,
            status := "connected", scopes := sc,
            providerAccessTokenEncrypted := a,
            providerRefreshTokenEncrypted := rf,
            tokenExpiresAt := ex, createdAt := now, updatedAt := now }] :
          List IntegrationRecord) = [] := by
      simp [Ne.symm hB]
    rw [hone, List.append_nil]

lemma disconnectRows_filter_userId_ne (uid now : Nat) (store : Store)
    {B : Nat} (hB : B ≠ uid) :
    (disconnectRows uid now store).filter (fun r => r.userId == B) =
      store.filter (fun r => r.userId == B) := by
  unfold disconnectRows
  rw [List.filter_map]
  have hcong : store.filter
      ((fun r => r.userId == B) ∘ disconnectUpdate uid now) =
      store.filter (fun r => r.userId == B) := by
    apply List.filter_congr
    intro r _
    simp [Function.comp_apply, disconnectUpdate_userId]
  rw [hcong]
  conv_rhs => rw [← List.map_id (store.filter (fun r => r.userId == B))]
  apply List.map_congr_left
  intro r hr
  rw [List.mem_filter] at hr
  have hrB : r.userId = B := by simpa using hr.2
  apply disconnectUpdate_of_ne
  simp [keyMatches, hrB, hB]

lemma find?_filter_imp (p q : IntegrationRecord → Bool)
    (himp : ∀ r, p r = true → q r = true) :
    ∀ store : Store, (store.filter q).find? p = store.find? p := by
  intro store
  induction store with
  | nil => rfl
  | cons r l ih =>
    cases hq : q r
    · have hp : p r = false := by
        cases hpr : p r
        · rfl
        · exact absurd (himp r hpr) (by simp [hq])
      simp [List.filter_cons, hq, List.find?_cons, hp, ih]
    · cases hp : p r
      · simp [List.filter_cons, hq, List.find?_cons, hp, ih]
      · simp [List.filter_cons, hq, List.find?_cons, hp]

lemma applyMutation_mem (uid now : Nat) (m : Mutation) (store : Store) :
    ∀ r' ∈ applyMutation uid now m store, r' ∈ store ∨ r'.updatedAt = now := by
  cases m with
  | connect d =>
    intro r' hr'
    rw [applyMutation, upsertGoogleIntegration_some] at hr'
    rcases upsertRows_mem _ _ _ _ _ _ _ _ r' hr' with h | h
    · exact .inl h
    · exact .inr h.2.2
  | disconnect =>
    intro r' hr'
    simp only [applyMutation, disconnectGoogleIntegration] at hr'
    exact disconnectRows_mem uid now store r' hr'

lemma applyMutation_track (uid now : Nat) (m : Mutation) (store : Store) :
    ∀ r ∈ store, ∃ r' ∈ applyMutation uid now m store,
      r'.userId = r.userId ∧ r'.provider = r.provider ∧
      (r' = r ∨ r'.updatedAt = now) := by
  cases m with
  | connect d =>
    intro r hr
    rw [applyMutation, upsertGoogleIntegration_some]
    exact upsertRows_track _ _ _ _ _ _ _ _ r hr
  | disconnect =>
    intro r hr
    simp only [applyMutation, disconnectGoogleIntegration]
    exact disconnectRows_track uid now store r hr

lemma applyMutation_stamped {store : Store} (uid now : Nat) (m : Mutation)
    (h : storeStampedLe store now) :
    storeStampedLe (applyMutation uid now m store) now := by
  intro r' hr'
  rcases applyMutation_mem uid now m store r' hr' with hm | hm
  · exact h r' hm
  · exact hm.le

lemma runMutations_track (ms : List TimedMutation) :
    ∀ store : Store, List.Chain' (fun a b => a.now ≤ b.now) ms →
      stampsLB ms store →
      ∀ r ∈ store, ∃ r' ∈ runMutations store ms,
        r'.userId = r.userId ∧ r'.provider = r.provider ∧
        r.updatedAt ≤ r'.updatedAt := by
  induction ms with
  | nil =>
    intro store _ _ r hr
    exact ⟨r, hr, rfl, rfl, le_rfl⟩
  | cons t rest ih =>
    intro store hchain hlb r hr
    obtain ⟨r1, hr1, hu1, hp1, hcase⟩ := applyMutation_track t.uid t.now t.op store r hr
    have hle1 : r.updatedAt ≤ r1.updatedAt := by
      rcases hcase with rfl | hnow
      · exact le_rfl
      · rw [hnow]
        exact hlb r hr
    have hst1 : storeStampedLe (applyMutation t.uid t.now t.op store) t.now :=
      applyMutation_stamped _ _ _ hlb
    have hchain' : List.Chain' (fun a b => a.now ≤ b.now) rest := hchain.tail
    have hlb' : stampsLB rest (applyMutation t.uid t.now t.op store) := by
      cases rest with
      | nil => trivial
      | cons t2 rest2 =>
        have hle : t.now ≤ t2.now := (List.chain'_cons.mp hchain).1
        intro x hx
        exact le_trans (hst1 x hx) hle
    obtain ⟨r', hr', hu', hp', hle'⟩ :=
      ih (applyMutation t.uid t.now t.op store) hchain' hlb' r1 hr1
    exact ⟨r', hr', by rw [hu', hu1], by rw [hp', hp1], le_trans hle1 hle'⟩

/-! ### Claim theorems -/

/-- C1: the claim states that connect encrypts token material before
writing, so the persisted token fields never equal the raw plaintext
tokens.  The code removed encryption and passes the raw tokens straight to
the encrypted columns, contradicting the migration comments (the
application MUST encrypt this) and the in-code TODO.  Evaluating the
connect action at a concrete input shows the persisted fields equal the
raw plaintext tokens exactly. -/
theorem connect_stores_plaintext_tokens :
    ((upsertGoogleIntegration (some 1) 1000
        { provider_access_token := some "raw-access-token"
          provider_refresh_token := some "raw-refresh-token"
          expires_in := some 3600
          scopes := ["email"]
          provider_user_id := "guser-1" } []).2.map
      (fun r => (r.providerAccessTokenEncrypted,
                 r.providerRefreshTokenEncrypted))) =
      [(some "raw-access-token", some "raw-refresh-token")] := by
  rfl

/-- C10: without an authenticated user, both `upsertGoogleIntegration` and
`disconnectGoogleIntegration` return the error value
`User not authenticated` and leave the store exactly as it was. -/
theorem unauthenticated_actions_no_mutation (now : Nat)
    (d : GoogleIntegrationData) (store : Store) :
    upsertGoogleIntegration none now d store =
      (.err "User not authenticated", store) ∧
    disconnectGoogleIntegration none now store =
      (.err "User not authenticated", store) :=
  ⟨rfl, rfl⟩

/-- C3 counterexample: the claim states that a connect call supplying null
tokens may not leave the record with status connected.  The SQL upsert
sets `status = connected` unconditionally: connecting with both token
fields null yields a record that is connected with null token fields. -/
theorem connect_null_tokens_marks_connected :
    ((upsertGoogleIntegration (some 1) 100
        { provider_access_token := none
          provider_refresh_token := none
          expires_in := none
          scopes := ["email"]
          provider_user_id := "guser-1" } []).2.map
      (fun r => (r.status, r.providerAccessTokenEncrypted,
                 r.providerRefreshTokenEncrypted))) =
      [("connected", none, none)] := by
  rfl

/-- C3 amended: the status of a record is connected iff the last lifecycle
write was a connect upsert — connect sets status connected regardless of
whether the supplied token fields are null, and disconnect sets status
disconnected with both token fields null. -/
theorem status_reflects_last_lifecycle_write (uid now : Nat)
    (d : GoogleIntegrationData) (store : Store) :
    (∀ r ∈ (upsertGoogleIntegration (some uid) now d store).2,
        keyMatches uid "google" r = true → r.status = "connected") ∧
    (∀ r ∈ (disconnectGoogleIntegration (some uid) now store).2,
        keyMatches uid "google" r = true →
          r.status = "disconnected" ∧
          r.providerAccessTokenEncrypted = none ∧
          r.providerRefreshTokenEncrypted = none) := by
  constructor
  · intro r hr hk
    rw [upsertGoogleIntegration_some] at hr
    exact (upsertRows_key_fields _ _ _ _ _ _ _ _ r hr hk).2.1
  · intro r hr hk
    simp only [disconnectGoogleIntegration] at hr
    obtain ⟨h1, _, h3, h4, _, _, _⟩ :=
      disconnectRows_key_fields uid now store r hr hk
    exact ⟨h1, h3, h4⟩

/-- Witness for the amended C3 theorem at a concrete input: connecting user
1 at time 100 yields a row whose status is connected. -/
theorem status_reflects_last_lifecycle_write_witness :
    ({ userId := 1, provider := "google", providerUserId := some "gu",
       status := "connected", scopes := some ["s"],
       providerAccessTokenEncrypted := some "A",
       providerRefreshTokenEncrypted := some "R",
       tokenExpiresAt := some 3600100, createdAt := 100,
       updatedAt := 100 } : IntegrationRecord).status = "connected" :=
  (status_reflects_last_lifecycle_write 1 100
    { provider_access_token := some "A", provider_refresh_token := some "R",
      expires_in := some 3600, scopes := ["s"], provider_user_id := "gu" } []).1
    _ (by decide) (by decide)

/-- C4 counterexample: the claim states that a token write based on stale
data performs no mutation and returns Conflict.  Here a first writer
stores the newer token at time 10; a second writer, whose data stems from
a read taken before that, writes at time 11: the action returns success
(no Conflict outcome exists in the code) and the newer token is silently
overwritten by the stale one. -/
theorem stale_write_silently_overwrites :
    ((upsertGoogleIntegration (some 1) 11
        { provider_access_token := some "stale-A"
          provider_refresh_token := some "stale-R"
          expires_in := some 1
          scopes := ["s"]
          provider_user_id := "gu" }
        (upsertGoogleIntegration (some 1) 10
          { provider_access_token := some "newer-A"
            provider_refresh_token := some "newer-R"
            expires_in := some 7200
            scopes := ["s"]
            provider_user_id := "gu" } []).2).1 = ActionResult.ok) ∧
    ((upsertGoogleIntegration (some 1) 11
        { provider_access_token := some "stale-A"
          provider_refresh_token := some "stale-R"
          expires_in := some 1
          scopes := ["s"]
          provider_user_id := "gu" }
        (upsertGoogleIntegration (some 1) 10
          { provider_access_token := some "newer-A"
            provider_refresh_token := some "newer-R"
            expires_in := some 7200
            scopes := ["s"]
            provider_user_id := "gu" } []).2).2.map
      (fun r => r.providerAccessTokenEncrypted)) = [some "stale-A"] :=
  ⟨rfl, rfl⟩

/-- C4 amended: the token-updating writes of the code (the connect upsert
and the disconnect update) are unconditional last-write-wins writes: for
every store state, whatever the current updatedAt of the record, an
authenticated write succeeds, overwrites the token fields with its own
values and bumps updatedAt — there is no compare on a version token and no
Conflict outcome. -/
theorem token_writes_last_write_wins (uid now : Nat)
    (d : GoogleIntegrationData) (store : Store) :
    (upsertGoogleIntegration (some uid) now d store).1 = ActionResult.ok ∧
    (disconnectGoogleIntegration (some uid) now store).1 = ActionResult.ok ∧
    ∀ r ∈ (upsertGoogleIntegration (some uid) now d store).2,
      keyMatches uid "google" r = true →
        r.providerAccessTokenEncrypted = d.provider_access_token ∧
        r.providerRefreshTokenEncrypted = d.provider_refresh_token ∧
        r.updatedAt = now := by
  refine ⟨by rw [upsertGoogleIntegration_some], rfl, ?_⟩
  intro r hr hk
  rw [upsertGoogleIntegration_some] at hr
  obtain ⟨_, _, _, h4, h5, _, h7⟩ := upsertRows_key_fields _ _ _ _ _ _ _ _ r hr hk
  exact ⟨h4, h5, h7⟩

/-- Witness for the amended C4 theorem at a concrete input: the write over
an existing newer record succeeds and leaves the written token. -/
theorem token_writes_last_write_wins_witness :
    ({ userId := 1, provider := "google", providerUserId := some "gu",
       status := "connected", scopes := some ["s"],
       providerAccessTokenEncrypted := some "stale-A",
       providerRefreshTokenEncrypted := some "stale-R",
       tokenExpiresAt := some 1011, createdAt := 10,
       updatedAt := 11 } : IntegrationRecord).providerAccessTokenEncrypted =
      some "stale-A" :=
  ((token_writes_last_write_wins 1 11
    { provider_access_token := some "stale-A",
      provider_refresh_token := some "stale-R",
      expires_in := some 1, scopes := ["s"], provider_user_id := "gu" }
    [{ userId := 1, provider := "google", providerUserId := some "gu",
       status := "connected", scopes := some ["s"],
       providerAccessTokenEncrypted := some "newer-A",
       providerRefreshTokenEncrypted := some "newer-R",
       tokenExpiresAt := some 7200010, createdAt := 10,
       updatedAt := 10 }]).2.2 _ (by decide) (by decide)).1

/-- C2: under the uniqueness constraint of the schema, two consecutive
connect calls for the same (userId, provider) — with possibly different
token values — leave exactly one record for that key, and its fields carry
the values of the latest call: connect is an idempotent upsert, never a
duplicate insert. -/
theorem connect_idempotent_upsert (uid now1 now2 : Nat)
    (d1 d2 : GoogleIntegrationData) (store : Store) (hwf : WFStore store) :
    ((upsertGoogleIntegration (some uid) now2 d2
        (upsertGoogleIntegration (some uid) now1 d1 store).2).2.countP
      (keyMatches uid "google") = 1) ∧
    ∀ r ∈ (upsertGoogleIntegration (some uid) now2 d2
        (upsertGoogleIntegration (some uid) now1 d1 store).2).2,
      keyMatches uid "google" r = true →
        r.providerUserId = some d2.provider_user_id ∧
        r.status = "connected" ∧
        r.scopes = some d2.scopes ∧
        r.providerAccessTokenEncrypted = d2.provider_access_token ∧
        r.providerRefreshTokenEncrypted = d2.provider_refresh_token ∧
        r.tokenExpiresAt = expiresAtOf now2 d2.expires_in ∧
        r.updatedAt = now2 := by
  simp only [upsertGoogleIntegration_some]
  constructor
  · exact upsertRows_countP_key _ _ _ _ _ _ _
      ((upsertRows_WF _ _ _ _ _ _ _ hwf) uid "google")
  · exact upsertRows_key_fields _ _ _ _ _ _ _ _

/-- Witness for the C2 theorem: starting from the empty store, two connect
calls with `sampleData1` then `sampleData2` leave exactly one google row
for user 1. -/
theorem connect_idempotent_upsert_witness :
    WFStore ([] : Store) ∧
    (((upsertGoogleIntegration (some 1) 20 sampleData2
        (upsertGoogleIntegration (some 1) 10 sampleData1 []).2).2.countP
      (keyMatches 1 "google") = 1) ∧
    ∀ r ∈ (upsertGoogleIntegration (some 1) 20 sampleData2
        (upsertGoogleIntegration (some 1) 10 sampleData1 []).2).2,
      keyMatches 1 "google" r = true →
        r.providerUserId = some sampleData2.provider_user_id ∧
        r.status = "connected" ∧
        r.scopes = some sampleData2.scopes ∧
        r.providerAccessTokenEncrypted = sampleData2.provider_access_token ∧
        r.providerRefreshTokenEncrypted = sampleData2.provider_refresh_token ∧
        r.tokenExpiresAt = expiresAtOf 20 sampleData2.expires_in ∧
        r.updatedAt = 20) :=
  ⟨fun _ _ => by simp,
   connect_idempotent_upsert 1 10 20 sampleData1 sampleData2 []
     (fun _ _ => by simp)⟩

/-- C5: for a connected record whose stored access token is fresh — now
plus the five-minute freshness margin lies strictly before the stored
expiry — the token read returns the stored (decrypted) access token,
performs no provider call and no store write.  The coordinator
`getGoogleTokensForUser` is modelled from the spec because the repository
holds it only as commented-out placeholder code. -/
theorem fresh_token_no_refresh_no_write (uid now : Nat) (store : Store)
    (r : IntegrationRecord) (a : String) (exp : Nat)
    (hfind : store.find?
      (fun x => keyMatches uid "google" x && x.status == "connected") = some r)
    (hacc : r.providerAccessTokenEncrypted = some a)
    (hexp : r.tokenExpiresAt = some exp)
    (hfresh : now + fiveMinutesMs < exp) :
    getGoogleTokensForUser uid now store =
      ({ accessToken := some a,
         refreshToken := r.providerRefreshTokenEncrypted.map decryptToken },
       [], store) := by
  unfold getGoogleTokensForUser
  rw [hfind]
  have hnot : ¬ (exp < now + fiveMinutesMs) := by omega
  simp [hacc, hexp, decryptToken, hnot]

/-- Witness for the C5 theorem: user 1 with `sampleFreshRow` at time 100
gets the stored token back with an empty effect list and the store
untouched. -/
theorem fresh_token_no_refresh_no_write_witness :
    (100 + fiveMinutesMs < 10000000) ∧
    (getGoogleTokensForUser 1 100 [sampleFreshRow]).1.accessToken =
      some "tok-A" :=
  ⟨by decide,
   by rw [fresh_token_no_refresh_no_write 1 100 [sampleFreshRow]
     sampleFreshRow "tok-A" 10000000 (by decide) rfl rfl (by decide)]⟩

/-- C6: for every authenticated user, disconnect returns success, every
google row of that user in the result has status disconnected with null
token fields, scopes and provider user id, and when no row exists for the
(userId, google) key the store is unchanged and the call still succeeds:
the case is treated as already-disconnected. -/
theorem disconnect_clears_and_always_succeeds (uid now : Nat) (store : Store) :
    (disconnectGoogleIntegration (some uid) now store).1 = ActionResult.ok ∧
    (∀ r ∈ (disconnectGoogleIntegration (some uid) now store).2,
        keyMatches uid "google" r = true →
          r.status = "disconnected" ∧ r.scopes = none ∧
          r.providerAccessTokenEncrypted = none ∧
          r.providerRefreshTokenEncrypted = none ∧
          r.tokenExpiresAt = none ∧ r.providerUserId = none) ∧
    ((∀ r ∈ store, keyMatches uid "google" r = false) →
        (disconnectGoogleIntegration (some uid) now store).2 = store) := by
  refine ⟨rfl, ?_, ?_⟩
  · intro r hr hk
    simp only [disconnectGoogleIntegration] at hr
    obtain ⟨h1, h2, h3, h4, h5, h6, _⟩ :=
      disconnectRows_key_fields uid now store r hr hk
    exact ⟨h1, h2, h3, h4, h5, h6⟩
  · intro hnone
    simp only [disconnectGoogleIntegration]
    exact disconnectRows_of_none uid now hnone

/-- Witness for the C6 theorem: disconnecting user 1 when only user 2 has
a row succeeds and leaves the store unchanged. -/
theorem disconnect_clears_and_always_succeeds_witness :
    (disconnectGoogleIntegration (some 1) 50 [sampleOtherRow]).1 =
      ActionResult.ok ∧
    (disconnectGoogleIntegration (some 1) 50 [sampleOtherRow]).2 =
      [sampleOtherRow] :=
  ⟨(disconnect_clears_and_always_succeeds 1 50 [sampleOtherRow]).1,
   (disconnect_clears_and_always_succeeds 1 50 [sampleOtherRow]).2.2
     (by decide)⟩

/-- C7: every lifecycle mutation stamps the rows it touches with the
mutation time (a row of the result either carries the fresh stamp or is an
untouched original), and over any timestamped mutation sequence whose
clock is non-decreasing and does not start before the existing stamps,
each initial row evolves to a row of the same key whose updatedAt is at
least its own: updatedAt is monotonically non-decreasing per record. -/
theorem updatedAt_set_and_monotone (uid now : Nat) (m : Mutation)
    (store : Store) (ms : List TimedMutation)
    (hchain : List.Chain' (fun a b => a.now ≤ b.now) ms)
    (hlb : stampsLB ms store) :
    (∀ r' ∈ applyMutation uid now m store, r' ∈ store ∨ r'.updatedAt = now) ∧
    (∀ r ∈ store, ∃ r' ∈ runMutations store ms,
        r'.userId = r.userId ∧ r'.provider = r.provider ∧
        r.updatedAt ≤ r'.updatedAt) :=
  ⟨applyMutation_mem uid now m store, runMutations_track ms store hchain hlb⟩

/-- Witness for the C7 theorem: a disconnect at time 5 followed by a
connect at time 7, run on a store stamped at 3. -/
theorem updatedAt_set_and_monotone_witness :
    (List.Chain' (fun a b : TimedMutation => a.now ≤ b.now)
      [{ now := 5, uid := 1, op := .disconnect },
       { now := 7, uid := 1, op := .connect sampleData1 }] ∧
     stampsLB
      [{ now := 5, uid := 1, op := .disconnect },
       { now := 7, uid := 1, op := .connect sampleData1 }] [sampleFreshRow]) ∧
    ((∀ r' ∈ applyMutation 1 5 .disconnect [sampleFreshRow],
        r' ∈ [sampleFreshRow] ∨ r'.updatedAt = 5) ∧
     (∀ r ∈ [sampleFreshRow], ∃ r' ∈ runMutations [sampleFreshRow]
        [{ now := 5, uid := 1, op := .disconnect },
         { now := 7, uid := 1, op := .connect sampleData1 }],
        r'.userId = r.userId ∧ r'.provider = r.provider ∧
        r.updatedAt ≤ r'.updatedAt)) :=
  ⟨⟨List.Chain.cons (by decide) List.Chain.nil,
    by intro r hr; rw [List.mem_singleton] at hr; subst hr; decide⟩,
   updatedAt_set_and_monotone 1 5 .disconnect [sampleFreshRow]
     [{ now := 5, uid := 1, op := .disconnect },
      { now := 7, uid := 1, op := .connect sampleData1 }]
     (List.Chain.cons (by decide) List.Chain.nil)
     (by intro r hr; rw [List.mem_singleton] at hr; subst hr; decide)⟩

/-- C8: every operation invoked with authenticated user A is scoped to A:
the two mutations leave the rows of any other user B exactly as they were
(the filtered sub-store of B is unchanged), and the two reads depend only
on the rows owned by A — their results are unchanged when the store is
restricted to the rows with userId = A. -/
theorem operations_scoped_to_caller (A B now : Nat)
    (d : GoogleIntegrationData) (store : Store) (hAB : B ≠ A) :
    ((upsertGoogleIntegration (some A) now d store).2.filter
        (fun r => r.userId == B) = store.filter (fun r => r.userId == B)) ∧
    ((disconnectGoogleIntegration (some A) now store).2.filter
        (fun r => r.userId == B) = store.filter (fun r => r.userId == B)) ∧
    ((fetchIntegrationStatus (some A) now store).1 =
      (fetchIntegrationStatus (some A) now
        (store.filter (fun r => r.userId == A))).1) ∧
    ((getGoogleTokensForUser A now store).1 =
      (getGoogleTokensForUser A now
        (store.filter (fun r => r.userId == A))).1) := by
  refine ⟨?_, ?_, ?_, ?_⟩
  · rw [upsertGoogleIntegration_some]
    exact upsertRows_filter_userId_ne _ _ _ _ _ _ _ store hAB
  · simp only [disconnectGoogleIntegration]
    exact disconnectRows_filter_userId_ne A now store hAB
  · have hfind := find?_filter_imp (keyMatches A "google")
      (fun r => r.userId == A)
      (fun r hr => by
        obtain ⟨h1, _⟩ := keyMatches_true_iff.mp hr
        simp [h1]) store
    simp only [fetchIntegrationStatus]
    rw [hfind]
    cases hx : store.find? (keyMatches A "google") <;> simp [hx]
  · have hfind := find?_filter_imp
      (fun x => keyMatches A "google" x && x.status == "connected")
      (fun r => r.userId == A)
      (fun r hr => by
        rw [Bool.and_eq_true] at hr
        obtain ⟨h1, _⟩ := keyMatches_true_iff.mp hr.1
        simp [h1]) store
    simp only [getGoogleTokensForUser]
    rw [hfind]
    cases hx : store.find?
        (fun x => keyMatches A "google" x && x.status == "connected") with
    | none => rfl
    | some r =>
      cases hacc : r.providerAccessTokenEncrypted with
      | none => cases hexp : r.tokenExpiresAt <;> simp [hacc, hexp]
      | some a =>
        cases hexp : r.tokenExpiresAt with
        | none => simp [hacc, hexp]
        | some e =>
          simp only [hacc, hexp, Option.map_some]
          by_cases hc : e < now + fiveMinutesMs <;> simp [hc]

/-- Witness for the C8 theorem at users 1 and 2 on a two-row store. -/
theorem operations_scoped_to_caller_witness :
    ((2 : Nat) ≠ 1) ∧
    (((upsertGoogleIntegration (some 1) 50 sampleData1
        [sampleFreshRow, sampleOtherRow]).2.filter
        (fun r => r.userId == 2) =
      [sampleFreshRow, sampleOtherRow].filter (fun r => r.userId == 2)) ∧
    ((disconnectGoogleIntegration (some 1) 50
        [sampleFreshRow, sampleOtherRow]).2.filter
        (fun r => r.userId == 2) =
      [sampleFreshRow, sampleOtherRow].filter (fun r => r.userId == 2)) ∧
    ((fetchIntegrationStatus (some 1) 50 [sampleFreshRow, sampleOtherRow]).1 =
      (fetchIntegrationStatus (some 1) 50
        ([sampleFreshRow, sampleOtherRow].filter (fun r => r.userId == 1))).1) ∧
    ((getGoogleTokensForUser 1 50 [sampleFreshRow, sampleOtherRow]).1 =
      (getGoogleTokensForUser 1 50
        ([sampleFreshRow, sampleOtherRow].filter (fun r => r.userId == 1))).1)) :=
  ⟨by decide,
   operations_scoped_to_caller 1 2 50 sampleData1
     [sampleFreshRow, sampleOtherRow] (by decide)⟩

/-- C9: the status query is a pure read: it leaves the store exactly as it
was, performs no effect (no refresh, no provider call, no write), and its
result is derived from the stored row — connected iff the stored status is
the string connected, with the stored scopes and a fresh lastChecked — or
a disconnected default when no row exists. -/
theorem status_query_pure_read (uid now : Nat) (store : Store) :
    ((fetchIntegrationStatus (some uid) now store).2.2 = store) ∧
    ((fetchIntegrationStatus (some uid) now store).2.1 = []) ∧
    (∀ r, store.find? (keyMatches uid "google") = some r →
        (fetchIntegrationStatus (some uid) now store).1 =
          some { provider := "google", connected := r.status == "connected",
                 scopes := r.scopes, lastChecked := some now }) ∧
    (store.find? (keyMatches uid "google") = none →
        (fetchIntegrationStatus (some uid) now store).1 =
          some { provider := "google", connected := false, scopes := none,
                 lastChecked := some now }) := by
  refine ⟨?_, ?_, ?_, ?_⟩
  · unfold fetchIntegrationStatus
    cases h : store.find? (keyMatches uid "google") <;> simp [h]
  · unfold fetchIntegrationStatus
    cases h : store.find? (keyMatches uid "google") <;> simp [h]
  · intro r hfind
    simp only [fetchIntegrationStatus]
    rw [hfind]
  · intro hfind
    simp only [fetchIntegrationStatus]
    rw [hfind]

/-- Witness for the C9 theorem: reading the status of user 1 on a one-row
store returns the derived view and leaves the store as it was. -/
theorem status_query_pure_read_witness :
    ([sampleFreshRow].find? (keyMatches 1 "google") = some sampleFreshRow) ∧
    (fetchIntegrationStatus (some 1) 50 [sampleFreshRow]).1 =
      some { provider := "google",
             connected := sampleFreshRow.status == "connected",
             scopes := sampleFreshRow.scopes, lastChecked := some 50 } :=
  ⟨by decide,
   (status_query_pure_read 1 50 [sampleFreshRow]).2.2.1 sampleFreshRow
     (by decide)⟩

end Employee
